import Mathlib

/-!
# Verification of the labwc context-menu subsystem (src/menu/menu.c)

Shallow embedding of the menu registry, layout engine, pipe-menu
controller and selection state machine from `src/menu/menu.c`, together
with proofs and refutations of the frozen specification claims.

Modelling conventions:
* Intrusive `wl_list` containers are modelled as Lean `List`s kept in
  registration order (`wl_list_append` appends at the tail and
  `wl_list_for_each` iterates head to tail, so list order is
  registration order).
* C `int` quantities (widths, heights, coordinates) are modelled as `Int`.
* Scene-graph side effects (`wlr_scene_*`) are modelled only where they
  carry state the claims mention (node positions, enabled flags);
  pure rendering calls are dropped.
* Pointers are modelled as `Nat` keys; `NULL` is `Option.none`.
-/

namespace Labwc

/-! ## Menu registry: `is_unique_id`, `menu_create`, `menu_get_by_id`

`menu_create` (menu.c:57) logs an error when the id already exists but
nevertheless allocates the menu and appends it to `server->menus`.
`menu_get_by_id` (menu.c:80) returns `NULL` for a null id and otherwise
the first list entry whose id matches. -/

/-- One registered menu, as far as the id registry is concerned
(`struct menu`'s `id` and `label` fields; `menu_create` stores
`label ? label : id`). -/
structure MenuReg where
  id : String
  label : String
deriving Repr, DecidableEq

/-- `is_unique_id` (menu.c:45): true iff no live menu carries `id`. -/
def is_unique_id (menus : List MenuReg) (id : String) : Bool :=
  menus.all (fun m => !(m.id = id))

/-- `menu_create` (menu.c:57): always appends a new menu to the registry;
the returned flag records whether the duplicate-id diagnostic was
emitted (`wlr_log(WLR_ERROR, "menu id %s already exists", id)`). -/
def menu_create (menus : List MenuReg) (id : String) (label : Option String) :
    List MenuReg × Bool :=
  (menus ++ [⟨id, label.getD id⟩], !is_unique_id menus id)

/-- `menu_get_by_id` (menu.c:80): `none` for a null id, else the first
registered menu with a matching id. -/
def menu_get_by_id (menus : List MenuReg) (id : Option String) : Option MenuReg :=
  match id with
  | none => none
  | some i => menus.find? (fun m => m.id = i)

/-- The ids of all live menus are pairwise distinct. -/
def uniqueIds (menus : List MenuReg) : Prop :=
  (menus.map (·.id)).Nodup

instance (menus : List MenuReg) : Decidable (uniqueIds menus) := by
  unfold uniqueIds; infer_instance

/-! ## Layout engine: `menu_update_width` (menu.c:95)

The width pass folds over the items: starting from
`theme->menu_min_width`, an item wider than the running maximum replaces
it by its native width clamped to `theme->menu_max_width`; finally twice
the horizontal item padding is added. -/

/-- The theme fields consumed by `menu_update_width`. -/
structure WTheme where
  menu_min_width : Int
  menu_max_width : Int
  menu_item_padding_x : Int
deriving Repr, DecidableEq

/-- The loop body of `menu_update_width` (menu.c:103-108):
`if (item->native_width > max_width) max_width =
  item->native_width < theme->menu_max_width ?
  item->native_width : theme->menu_max_width;` -/
def update_width_step (menu_max_width : Int) (max_width native : Int) : Int :=
  if native > max_width then
    (if native < menu_max_width then native else menu_max_width)
  else max_width

/-- `menu_update_width` (menu.c:95): the computed `menu->size.width`,
given the native widths of the items in list order. -/
def menu_update_width (theme : WTheme) (natives : List Int) : Int :=
  natives.foldl (update_width_step theme.menu_max_width) theme.menu_min_width
    + 2 * theme.menu_item_padding_x

/-- The widest item's natural width (0 when there are no items). -/
def widest (natives : List Int) : Int := natives.foldl max 0

/-- The width formula as the specification words it: the maximum of the
configured minimum width and the widest item's natural width clamped to
the configured maximum width, plus twice the horizontal item padding. -/
def spec_menu_width (theme : WTheme) (natives : List Int) : Int :=
  max theme.menu_min_width (min (widest natives) theme.menu_max_width)
    + 2 * theme.menu_item_padding_x

/-! ## Layout engine: item heights and positions

`item_create` (menu.c:172) and `separator_create` (menu.c:262) place a
new item at `y = menu->size.height` and then add the item's height to
`menu->size.height`.  `menu_hide_submenu` (menu.c:782) removes every
item pointing to the hidden menu and, when at least one was removed,
resets `menu->size.height` to 0 and re-walks the items assigning
positions and re-accumulating the height. -/

/-- The layout-relevant fields of a `struct menuitem`: its fixed height,
its vertical position within the menu (`item->tree->node.y`), its
submenu reference and whether it is selectable (false for separators).
Heights are supplied by the caller: regular items use the menu's
memoized `item_height` (font height plus vertical padding), separators
use the separator thickness plus padding. -/
structure LItem where
  height : Int
  y : Int
  submenu : Option Nat
  selectable : Bool
deriving Repr, DecidableEq

/-- The layout-relevant fields of a `struct menu`: its ordered item list
and the accumulated `size.height`.  A fresh menu from `menu_create` has
no items and height 0. -/
structure LMenu where
  items : List LItem
  height : Int
deriving Repr, DecidableEq

/-- A fresh menu as produced by `menu_create` (menu.c:57): empty item
list, `size.height` zero-initialized by `znew`. -/
def lmenu_empty : LMenu := { items := [], height := 0 }

/-- The height/position bookkeeping shared by `item_create` (menu.c:248-257)
and `separator_create` (menu.c:289-297): the new item is positioned at
`y = menu->size.height`, appended, and the menu height grows by the
item's height. -/
def lmenu_append (m : LMenu) (h : Int) (submenu : Option Nat)
    (selectable : Bool) : LMenu :=
  { items := m.items ++ [⟨h, m.height, submenu, selectable⟩],
    height := m.height + h }

/-- `item_create` (menu.c:172): a selectable item (its submenu reference
is wired afterwards by the builder, modelled here as a parameter). -/
def item_create (m : LMenu) (h : Int) (submenu : Option Nat) : LMenu :=
  lmenu_append m h submenu true

/-- `separator_create` (menu.c:262): a non-selectable spacer item with
no submenu. -/
def separator_create (m : LMenu) (h : Int) : LMenu :=
  lmenu_append m h none false

/-- The re-positioning walk of `menu_hide_submenu` (menu.c:804-809):
starting from height 0, each surviving item is placed at the running
height which then grows by the item's height. -/
def repositionFrom (acc : Int) : List LItem → List LItem
  | [] => []
  | it :: rest => { it with y := acc } :: repositionFrom (acc + it.height) rest

/-- Sum of the heights of a list of items. -/
def heightSum (items : List LItem) : Int := (items.map (·.height)).sum

/-- The per-menu part of `menu_hide_submenu` (menu.c:790-810): items
whose submenu reference equals the hidden menu are destroyed; if any
was, positions and the menu height are recomputed from scratch. -/
def menu_hide_submenu (m : LMenu) (hideKey : Nat) : LMenu :=
  let keep := m.items.filter (fun it => !(it.submenu = some hideKey))
  if keep.length = m.items.length then m
  else { items := repositionFrom 0 keep, height := heightSum keep }

/-- An item-creation or item-removal operation on one menu. -/
inductive LOp where
  | addItem (h : Int) (submenu : Option Nat)
  | addSeparator (h : Int)
  | hideSubmenu (k : Nat)
deriving Repr, DecidableEq

def applyLOp (m : LMenu) : LOp → LMenu
  | .addItem h sub => item_create m h sub
  | .addSeparator h => separator_create m h
  | .hideSubmenu k => menu_hide_submenu m k

def applyLOps (m : LMenu) (ops : List LOp) : LMenu := ops.foldl applyLOp m

/-- Every item sits at the running sum of the heights of the preceding
items, starting from `acc`. -/
def positionsFrom : List LItem → Int → Prop
  | [], _ => True
  | it :: rest, acc => it.y = acc ∧ positionsFrom rest (acc + it.height)

instance : ∀ (items : List LItem) (acc : Int), Decidable (positionsFrom items acc) := by
  intro items
  induction items with
  | nil => intro acc; exact .isTrue trivial
  | cons it rest ih =>
    intro acc
    unfold positionsFrom
    have := ih (acc + it.height)
    infer_instance

/-- The layout invariant of claim C5: the stored height is the sum of
the item heights and each item's position is the sum of the heights of
the items before it. -/
def layoutInv (m : LMenu) : Prop :=
  m.height = heightSum m.items ∧ positionsFrom m.items 0

/-! ## Placement: `menu_get_full_width` (menu.c:681) and the alignment
resolution of `menu_configure` (menu.c:719)

`menu_get_full_width` returns the menu's width minus the horizontal
overlap constant, plus the largest full width among the submenus hanging
off its items (0 when no item has a submenu).  `menu_configure` first
resolves the output (screen region) under the point; failure leaves the
menu unpositioned.  With `LAB_MENU_OPEN_AUTO` it opens leftward exactly
when the region-local x plus the full width exceeds the region's usable
width; independently it opens upward exactly when the region-local y
plus the menu height exceeds the usable height. -/

/-- A menu as seen by `menu_get_full_width`: its width and the submenus
reachable through its items (items without a submenu are skipped by the
loop and are simply absent here). -/
inductive MTree where
  | node (width : Int) (children : List MTree)
deriving Repr

mutual

/-- `menu_get_full_width` (menu.c:681): width minus `menu_overlap_x`
plus the widest child chain. -/
def menu_get_full_width (overlap_x : Int) : MTree → Int
  | .node w cs => w - overlap_x + max_child_width overlap_x cs

/-- The loop of menu.c:688-696: the running maximum (starting at 0) of
the children's full widths. -/
def max_child_width (overlap_x : Int) : List MTree → Int
  | [] => 0
  | t :: ts =>
    let child_width := menu_get_full_width overlap_x t
    let rest := max_child_width overlap_x ts
    if child_width > rest then child_width else rest

end

/-- The horizontal part of the requested alignment: `LAB_MENU_OPEN_AUTO`
or an already-fixed left/right bit. -/
inductive HAlignIn where
  | auto
  | left
  | right
deriving Repr, DecidableEq

/-- A screen region's usable area (`output->usable_area`). -/
structure UsableArea where
  width : Int
  height : Int
deriving Repr, DecidableEq

/-- The alignment finally stored in `menu->align`: a left/right bit and
a top/bottom bit. -/
structure ResolvedAlign where
  left : Bool
  top : Bool
deriving Repr, DecidableEq

/-- The alignment-resolution part of `menu_configure` (menu.c:740-755),
given the region-local coordinates `(ox, oy)` of the requested point
(the result of `wlr_output_layout_output_coords`): with automatic
alignment the horizontal direction is leftward exactly when
`ox + full_width > usable.width` (menu.c:742); the vertical bits are
then rewritten to top exactly when `oy + height > usable.height`
(menu.c:749). -/
def resolve_align (full_width height : Int) (ox oy : Int)
    (usable : UsableArea) (align : HAlignIn) : ResolvedAlign :=
  let left : Bool :=
    match align with
    | .auto => decide (ox + full_width > usable.width)
    | .left => true
    | .right => false
  { left := left, top := decide (oy + height > usable.height) }

/-- The region-resolution prologue of `menu_configure` (menu.c:727-736):
when no output contains the point, the function returns with a
diagnostic and the menu stays unpositioned (`none`); otherwise the
alignment is resolved against the output's usable area, using
`menu_get_full_width` in the automatic case. -/
def menu_configure_align (overlap_x : Int) (menu : MTree) (height : Int)
    (region : Option UsableArea) (ox oy : Int) (align : HAlignIn) :
    Option ResolvedAlign :=
  match region with
  | none => none
  | some usable =>
    some (resolve_align (menu_get_full_width overlap_x menu) height ox oy usable align)

/-! ## Pipe-menu controller and selection state machine

The state shared by `menu_process_item_selection` (menu.c:1243),
`parse_pipemenu` (menu.c:1210), `handle_pipemenu_readable` (menu.c:1163),
`handle_pipemenu_timeout` (menu.c:1146), `pipemenu_ctx_destroy`
(menu.c:1135), `create_pipe_menu` (menu.c:1069), `menu_free` (menu.c:918)
and `destroy_pipemenus` (menu.c:1004), modelled as a single `World`
record.  Pointers are `Nat` keys into the `menus`/`items` lists; the
side effects the claims mention (spawning a subprocess, sending SIGTERM,
emitting a diagnostic) are recorded in log fields. -/

/-- The pipe-menu command and generated id of an item; `struct menuitem`
sets `execute` and `id` together (menu.c:511-512), so they are modelled
as one optional pair. -/
structure PipeDef where
  execute : String
  id : String
deriving Repr, DecidableEq

/-- The fields of `struct menuitem` used by selection, pipe menus and
teardown. `parent` is the owning menu's key (a pointer in C, so it is
optional). -/
structure WItem where
  key : Nat
  parent : Option Nat
  selectable : Bool
  pipe : Option PipeDef
  submenu : Option Nat
deriving Repr, DecidableEq

/-- The fields of `struct menu` used by selection, pipe menus and
teardown: id string, parent pointer, scene-node enabled flag,
`selection.item`, `selection.menu`, `triggered_by_view` (an opaque view
key) and the `is_pipemenu` flag. -/
structure WMenu where
  key : Nat
  id : String
  parent : Option Nat
  enabled : Bool
  selItem : Option Nat
  selMenu : Option Nat
  triggeredBy : Option Nat
  isPipemenu : Bool
deriving Repr, DecidableEq

/-- `struct pipe_context` (menu.c:1059): the triggering item and the
accumulated output buffer.  The event sources, pid and fd exist only as
reactor resources and carry no state the claims mention. -/
structure PipeCtx where
  itemKey : Nat
  buf : List Char
deriving Repr, DecidableEq

/-- The global state of the subsystem: the `server->menus` registry, all
live menu items, the static `selected_item` and `waiting_for_pipe_menu`
variables (menu.c:40-41), the single in-flight `pipe_context`, and
effect logs (spawned commands, SIGTERMs sent, error diagnostics
emitted).  `nextPid` models the return value of the next `spawn_piped`
call (`≤ 0` means spawn failure). -/
structure World where
  menus : List WMenu
  items : List WItem
  selectedItem : Option Nat
  waiting : Bool
  ctx : Option PipeCtx
  spawned : List String
  sigterms : Nat
  diags : Nat
  nextPid : Int
deriving Repr, DecidableEq

def getMenu (w : World) (k : Nat) : Option WMenu :=
  w.menus.find? (fun m => m.key = k)

def getItem (w : World) (k : Nat) : Option WItem :=
  w.items.find? (fun it => it.key = k)

def setMenu (w : World) (k : Nat) (f : WMenu → WMenu) : World :=
  { w with menus := w.menus.map (fun m => if m.key = k then f m else m) }

def setItem (w : World) (k : Nat) (f : WItem → WItem) : World :=
  { w with items := w.items.map (fun it => if it.key = k then f it else it) }

def logDiag (w : World) : World := { w with diags := w.diags + 1 }

/-- `is_unique_id` (menu.c:45) over the world's menu registry. -/
def wuniqueId (w : World) (id : String) : Bool :=
  w.menus.all (fun m => !(m.id = id))

/-! ### Closing: `_close`/`menu_close` (menu.c:1021-1040)

`_close` disables the menu's scene node, clears its selection and
recurses into the open child chain.  The C recursion follows
`selection.menu` pointers; the model bounds it with fuel (the number of
live menus suffices for any acyclic chain, and the C structure admits no
cycles along an open path). -/

def closeRec (fuel : Nat) (w : World) (k : Nat) : World :=
  match fuel with
  | 0 => w
  | fuel + 1 =>
    match getMenu w k with
    | none => w
    | some m =>
      let w := setMenu w k (fun m => { m with enabled := false, selItem := none })
      match m.selMenu with
      | none => w
      | some c => setMenu (closeRec fuel w c) k (fun m => { m with selMenu := none })

/-- `menu_close` (menu.c:1032): logs when handed a missing menu,
otherwise runs `_close`. -/
def menu_close (w : World) (k : Nat) : World :=
  match getMenu w k with
  | none => logDiag w
  | some _ => closeRec w.menus.length w k

/-! ### Teardown: `nullify_item_pointing_to_this_menu` (menu.c:895),
`menu_free` (menu.c:918), `destroy_pipemenus` (menu.c:1004) -/

/-- `nullify_item_pointing_to_this_menu` (menu.c:895): clear every
item's submenu reference to the dying menu and every menu's parent
reference to it. -/
def nullify_item_pointing_to_this_menu (w : World) (k : Nat) : World :=
  { w with
    items := w.items.map (fun it =>
      if it.submenu = some k then { it with submenu := none } else it),
    menus := w.menus.map (fun m =>
      if m.parent = some k then { m with parent := none } else m) }

/-- `menu_free` (menu.c:918): nullify references to the menu, destroy
its items (`item_destroy` unlinks them), then unlink and free the menu
itself. -/
def menu_free (w : World) (k : Nat) : World :=
  let w := nullify_item_pointing_to_this_menu w k
  { w with
    items := w.items.filter (fun it => !(it.parent = some k)),
    menus := w.menus.filter (fun m => !(m.key = k)) }

/-- The keys of the currently live pipe-menu-sourced menus. -/
def pipeKeys (w : World) : List Nat :=
  (w.menus.filter (·.isPipemenu)).map (·.key)

/-- `destroy_pipemenus` (menu.c:1004): walk the registry with a
removal-safe iterator freeing every pipe-menu-sourced menu.  `menu_free`
never changes another menu's key or `is_pipemenu` flag, so the set of
freed menus is the set of pipe menus at entry, freed in registration
order. -/
def destroy_pipemenus (w : World) : World :=
  (pipeKeys w).foldl menu_free w

/-! ### The in-flight request: spawn, readable, timeout -/

/-- A fresh key not used by any live menu, standing for the address of a
newly allocated `struct menu`. -/
def freshMenuKey (w : World) : Nat :=
  (w.menus.map (·.key)).foldr (fun k acc => max (k + 1) acc) 0

/-- `pipemenu_ctx_destroy` (menu.c:1135): unregister the event sources,
release the subprocess resources and the buffer, free the context and
clear `waiting_for_pipe_menu`. -/
def pipemenu_ctx_destroy (w : World) : World :=
  { w with ctx := none, waiting := false }

/-- `parse_pipemenu` (menu.c:1210): abort with a diagnostic when the
item's generated id collides with a live menu id or when the spawn
fails; otherwise record the spawned command, set
`waiting_for_pipe_menu` and register the pipe context with an empty
buffer. -/
def parse_pipemenu (w : World) (item : WItem) (pd : PipeDef) : World :=
  if !wuniqueId w pd.id then logDiag w
  else if w.nextPid ≤ 0 then logDiag w
  else
    { w with
      waiting := true,
      ctx := some ⟨item.key, []⟩,
      spawned := w.spawned ++ [pd.execute] }

/-- `create_pipe_menu` (menu.c:1069): bail out (diagnosing) when the
triggering item's parent menu is gone or no longer shown; otherwise
register a new pipe-menu-sourced menu (`menu_create` appends it and
diagnoses a duplicate id without failing).  Parsing of the accumulated
buffer (`parse_buf`, libxml) is abstracted by the `parseOk` parameter
and the submenu structure it would build is outside this model: on
failure the fresh menu is freed again and the item's submenu link
cleared; on success the item's submenu is attached, widths and actions
are recomputed (modelled separately), the new tree is enabled and
becomes the parent's open child. -/
def create_pipe_menu (w : World) (ctx : PipeCtx) (parseOk : Bool) : World :=
  match getItem w ctx.itemKey with
  | none => w
  | some item =>
    match item.parent.bind (getMenu w) with
    | none => logDiag w
    | some pipe_parent =>
      if !pipe_parent.enabled then logDiag w
      else
        let newKey := freshMenuKey w
        let pipeId := (item.pipe.map (·.id)).getD ""
        let pipeMenu : WMenu :=
          { key := newKey, id := pipeId, parent := some pipe_parent.key,
            enabled := false, selItem := none, selMenu := none,
            triggeredBy := pipe_parent.triggeredBy, isPipemenu := true }
        let w' :=
          { w with
            diags := w.diags + (if wuniqueId w pipeId then 0 else 1),
            menus := w.menus ++ [pipeMenu] }
        if !parseOk then
          setItem (menu_free w' newKey) ctx.itemKey
            (fun it => { it with submenu := none })
        else
          let w' := setItem w' ctx.itemKey
            (fun it => { it with submenu := some newKey })
          let w' := setMenu w' newKey (fun m => { m with enabled := true })
          setMenu w' pipe_parent.key (fun m => { m with selMenu := some newKey })

/-- `PIPEMENU_MAX_BUF_SIZE` (menu.c:29). -/
def PIPEMENU_MAX_BUF_SIZE : Nat := 1048576

/-- `starts_with_less_than` (menu.c:1157): skip the leading span of
spaces, tabs, carriage returns and newlines and test whether the next
character is `<` (the NUL terminator of an all-whitespace buffer is
not). -/
def isMenuSpace (c : Char) : Bool :=
  c = ' ' || c = '\t' || c = '\r' || c = '\n'

def starts_with_less_than (s : List Char) : Bool :=
  match s.dropWhile isMenuSpace with
  | [] => false
  | c :: _ => c = '<'

/-- The outcome of the `read(2)` call in `handle_pipemenu_readable`:
an error, or a chunk of bytes (`[]` is the zero-length end-of-stream
read).  The C buffer treats the data as a NUL-terminated string, so a
chunk is modelled as NUL-free text. -/
inductive ReadResult where
  | err
  | chunk (data : List Char)
deriving Repr, DecidableEq

/-- `handle_pipemenu_readable` (menu.c:1163): on read error tear the
request down with a diagnostic; if appending the chunk would push the
buffer past `PIPEMENU_MAX_BUF_SIZE`, diagnose, send SIGTERM and tear
down; a non-empty chunk is appended and the request stays in flight; a
zero-length read (end of stream) builds the submenu only when the
buffer starts (after whitespace) with `<`, and tears the request down
in every terminal case. -/
def handle_pipemenu_readable (w : World) (r : ReadResult) (parseOk : Bool) : World :=
  match w.ctx with
  | none => w
  | some ctx =>
    match r with
    | .err => pipemenu_ctx_destroy (logDiag w)
    | .chunk data =>
      if ctx.buf.length + data.length > PIPEMENU_MAX_BUF_SIZE then
        pipemenu_ctx_destroy { (logDiag w) with sigterms := w.sigterms + 1 }
      else if data ≠ [] then
        { w with ctx := some { ctx with buf := ctx.buf ++ data } }
      else if !starts_with_less_than ctx.buf then
        pipemenu_ctx_destroy (logDiag w)
      else
        pipemenu_ctx_destroy (create_pipe_menu w ctx parseOk)

/-- `handle_pipemenu_timeout` (menu.c:1146): diagnose, SIGTERM the
subprocess and tear the request down. -/
def handle_pipemenu_timeout (w : World) : World :=
  pipemenu_ctx_destroy { (logDiag w) with sigterms := w.sigterms + 1 }

/-! ### Selection: `menu_set_selection` (menu.c:966) and
`menu_process_item_selection` (menu.c:1243) -/

/-- `menu_set_selection` (menu.c:966): record the highlighted item on
its menu (the old/new items' scene nodes are toggled, which is pure
rendering). -/
def menu_set_selection (w : World) (menuKey : Nat) (item : Option Nat) : World :=
  setMenu w menuKey (fun m => { m with selItem := item })

/-- The body of `menu_process_item_selection` past its guards
(menu.c:1258-1287): non-selectable items only update the
`selected_item` marker (already done by the caller); otherwise the
item is highlighted on its menu, a previously open child tree is
closed, a pipe item with no submenu yet starts a pipe-menu request and
returns, and an existing submenu has its triggering view and parent
refreshed, is enabled, and becomes the menu's open child. -/
def select_body (w : World) (item : WItem) : World :=
  if !item.selectable then w
  else
    match item.parent with
    | none => w
    | some parentKey =>
      let w := menu_set_selection w parentKey (some item.key)
      let w :=
        match (getMenu w parentKey).bind (·.selMenu) with
        | some oldChild => menu_close w oldChild
        | none => w
      match item.pipe, item.submenu with
      | some pd, none => parse_pipemenu w item pd
      | _, _ =>
        let w :=
          match item.submenu with
          | some sk =>
            let trig := (getMenu w parentKey).bind (·.triggeredBy)
            setMenu w sk (fun m =>
              { m with triggeredBy := trig, parent := some parentKey,
                       enabled := true })
          | none => w
        setMenu w parentKey (fun m => { m with selMenu := item.submenu })

/-- `menu_process_item_selection` (menu.c:1243): a no-op when the item
is the one last selected or while a pipe-menu request is pending;
otherwise the `selected_item` marker moves to this item and the body
runs.  (In C the item argument is a valid pointer by assertion; an
absent key is modelled as a no-op.) -/
def menu_process_item_selection (w : World) (k : Nat) : World :=
  match getItem w k with
  | none => w
  | some item =>
    if w.selectedItem = some k then w
    else if w.waiting then w
    else select_body { w with selectedItem := some k } item

/-! ## Concrete worlds used by the witness theorems -/

/-- Witness for C1 at a concrete overflowing input: one in-flight
request with an empty buffer receiving a chunk one byte past the cap. -/
def overflowWorld : World :=
  { menus := [], items := [⟨0, none, true, some ⟨"cmd", "pipe-0"⟩, none⟩],
    selectedItem := none, waiting := true, ctx := some ⟨0, []⟩,
    spawned := ["cmd"], sigterms := 0, diags := 0, nextPid := 1 }

/-- Witness for C2: with a request pending, selecting a different,
perfectly selectable pipe item changes nothing. -/
def pendingWorld : World :=
  { menus := [⟨7, "m", none, true, none, none, none, false⟩],
    items := [⟨3, some 7, true, some ⟨"other", "pipe-3"⟩, none⟩],
    selectedItem := none, waiting := true, ctx := some ⟨9, []⟩,
    spawned := ["first"], sigterms := 0, diags := 0, nextPid := 1 }

/-- Witness for C3: a request whose subprocess printed `not xml` is
aborted at end of stream with a diagnostic and no state change beyond
the teardown. -/
def malformedWorld : World :=
  { menus := [⟨7, "m", none, true, none, none, none, false⟩],
    items := [⟨0, some 7, true, some ⟨"cmd", "pipe-0"⟩, none⟩],
    selectedItem := none, waiting := true,
    ctx := some ⟨0, ['n', 'o', 't', ' ', 'x', 'm', 'l']⟩,
    spawned := ["cmd"], sigterms := 0, diags := 0, nextPid := 1 }

/-- Witness for C10: a static root menu whose item pointed to a pipe
menu survives `destroy_pipemenus` with the reference cleared; concretely
the surviving menu does not have the freed key as its key or parent. -/
def teardownWorld : World :=
  { menus := [⟨0, "root", none, true, none, some 1, none, false⟩,
              ⟨1, "pipe-1", some 0, true, none, none, none, true⟩],
    items := [⟨5, some 0, true, some ⟨"cmd", "pipe-1"⟩, some 1⟩,
              ⟨6, some 1, true, none, none⟩],
    selectedItem := none, waiting := false, ctx := none,
    spawned := [], sigterms := 0, diags := 0, nextPid := 1 }

/-! ## Helper lemmas

`menu_close` and the selection body only ever touch the menu registry
entries, the diagnostic counter and (through `parse_pipemenu`) the
pipe-request fields; the item list and the `selected_item` marker are
untouched.  These frame facts drive the proofs of C2 and C9. -/

lemma is_unique_id_iff (menus : List MenuReg) (i : String) :
    is_unique_id menus i = true ↔ ∀ m ∈ menus, m.id ≠ i := by
  simp [is_unique_id]

lemma is_unique_id_false_iff (menus : List MenuReg) (i : String) :
    is_unique_id menus i = false ↔ ∃ m ∈ menus, m.id = i := by
  simp [is_unique_id]

lemma update_width_fold_eq (mx mn : Int) (hmx : mn ≤ mx)
    (natives : List Int) (hns : ∀ n ∈ natives, 0 ≤ n)
    (acc w : Int) (hw : 0 ≤ w) (hacc : acc = max mn (min w mx)) :
    natives.foldl (update_width_step mx) acc
      = max mn (min (natives.foldl max w) mx) := by
  induction natives generalizing acc w with
  | nil => simpa using hacc
  | cons n rest ih =>
    have hn : 0 ≤ n := hns n (by simp)
    have hrest : ∀ m ∈ rest, 0 ≤ m := fun m hm => hns m (by simp [hm])
    simp only [List.foldl_cons]
    refine ih hrest (update_width_step mx acc n) (max w n) (le_trans hw (le_max_left _ _)) ?_
    unfold update_width_step
    rcases le_or_lt n acc with h | h
    · simp only [if_neg (not_lt.mpr h)]
      omega
    · simp only [if_pos h]
      omega

lemma positionsFrom_append_singleton (xs : List LItem) (it : LItem) (acc : Int)
    (hxs : positionsFrom xs acc) (hit : it.y = acc + heightSum xs) :
    positionsFrom (xs ++ [it]) acc := by
  induction xs generalizing acc with
  | nil => simpa [positionsFrom, heightSum] using hit
  | cons x rest ih =>
    obtain ⟨hy, hrest⟩ := hxs
    refine ⟨hy, ih (acc + x.height) hrest ?_⟩
    simp [heightSum] at hit ⊢
    omega

lemma positionsFrom_repositionFrom (xs : List LItem) (acc : Int) :
    positionsFrom (repositionFrom acc xs) acc := by
  induction xs generalizing acc with
  | nil => trivial
  | cons x rest ih => exact ⟨rfl, ih (acc + x.height)⟩

lemma heightSum_repositionFrom (xs : List LItem) (acc : Int) :
    heightSum (repositionFrom acc xs) = heightSum xs := by
  induction xs generalizing acc with
  | nil => rfl
  | cons x rest ih => simp [repositionFrom, heightSum] at ih ⊢; exact ih _

lemma layoutInv_append (m : LMenu) (h : Int) (sub : Option Nat) (sel : Bool)
    (hm : layoutInv m) : layoutInv (lmenu_append m h sub sel) := by
  obtain ⟨hh, hp⟩ := hm
  constructor
  · simp [lmenu_append, heightSum] at hh ⊢; omega
  · exact positionsFrom_append_singleton _ _ _ hp (by simpa using hh)

lemma layoutInv_hide (m : LMenu) (k : Nat) (hm : layoutInv m) :
    layoutInv (menu_hide_submenu m k) := by
  unfold menu_hide_submenu
  simp only []
  split
  · exact hm
  · exact ⟨(heightSum_repositionFrom _ _).symm, positionsFrom_repositionFrom _ _⟩

lemma layoutInv_applyLOp (m : LMenu) (op : LOp) (hm : layoutInv m) :
    layoutInv (applyLOp m op) := by
  cases op with
  | addItem h sub => exact layoutInv_append m h sub true hm
  | addSeparator h => exact layoutInv_append m h none false hm
  | hideSubmenu k => exact layoutInv_hide m k hm

example : menu_update_width ⟨10, 8, 1⟩ [12] = 10 := by decide
example : spec_menu_width ⟨10, 8, 1⟩ [12] = 12 := by decide

lemma closeRec_frame (fuel : Nat) (w : World) (k : Nat) :
    (closeRec fuel w k).items = w.items ∧
    (closeRec fuel w k).selectedItem = w.selectedItem ∧
    (closeRec fuel w k).waiting = w.waiting ∧
    (closeRec fuel w k).ctx = w.ctx ∧
    (closeRec fuel w k).spawned = w.spawned := by
  induction fuel generalizing w k with
  | zero => exact ⟨rfl, rfl, rfl, rfl, rfl⟩
  | succ n ih =>
    unfold closeRec
    split
    · exact ⟨rfl, rfl, rfl, rfl, rfl⟩
    · split
      · exact ⟨rfl, rfl, rfl, rfl, rfl⟩
      · exact ih _ _

lemma menu_close_frame (w : World) (k : Nat) :
    (menu_close w k).items = w.items ∧
    (menu_close w k).selectedItem = w.selectedItem ∧
    (menu_close w k).waiting = w.waiting ∧
    (menu_close w k).ctx = w.ctx ∧
    (menu_close w k).spawned = w.spawned := by
  unfold menu_close
  split
  · exact ⟨rfl, rfl, rfl, rfl, rfl⟩
  · exact closeRec_frame _ _ _

lemma parse_pipemenu_frame (w : World) (item : WItem) (pd : PipeDef) :
    (parse_pipemenu w item pd).items = w.items ∧
    (parse_pipemenu w item pd).selectedItem = w.selectedItem := by
  unfold parse_pipemenu
  split
  · exact ⟨rfl, rfl⟩
  · split
    · exact ⟨rfl, rfl⟩
    · exact ⟨rfl, rfl⟩

lemma parse_pipemenu_spawn_cases (w : World) (item : WItem) (pd : PipeDef) :
    (parse_pipemenu w item pd).spawned = w.spawned ∨
    ((parse_pipemenu w item pd).waiting = true ∧
     (parse_pipemenu w item pd).ctx.isSome = true) := by
  unfold parse_pipemenu
  split
  · exact .inl rfl
  · split
    · exact .inl rfl
    · exact .inr ⟨rfl, rfl⟩

lemma select_body_frame (w : World) (item : WItem) :
    (select_body w item).items = w.items ∧
    (select_body w item).selectedItem = w.selectedItem := by
  unfold select_body
  split
  · exact ⟨rfl, rfl⟩
  · split
    · exact ⟨rfl, rfl⟩
    · rename_i parentKey _
      dsimp only []
      cases hsel : (getMenu (menu_set_selection w parentKey (some item.key))
          parentKey).bind (fun m => m.selMenu) with
      | none =>
        cases hp : item.pipe with
        | none =>
          cases hsub : item.submenu with
          | none => exact ⟨rfl, rfl⟩
          | some sk => exact ⟨rfl, rfl⟩
        | some pd =>
          cases hsub : item.submenu with
          | none => exact parse_pipemenu_frame _ item pd
          | some sk => exact ⟨rfl, rfl⟩
      | some oldChild =>
        have hc := menu_close_frame (menu_set_selection w parentKey (some item.key)) oldChild
        cases hp : item.pipe with
        | none =>
          cases hsub : item.submenu with
          | none => exact ⟨hc.1, hc.2.1⟩
          | some sk => exact ⟨hc.1, hc.2.1⟩
        | some pd =>
          cases hsub : item.submenu with
          | none =>
            have hpp := parse_pipemenu_frame
              (menu_close (menu_set_selection w parentKey (some item.key)) oldChild) item pd
            exact ⟨hpp.1.trans hc.1, hpp.2.trans hc.2.1⟩
          | some sk => exact ⟨hc.1, hc.2.1⟩

lemma select_body_spawn_cases (w : World) (item : WItem) :
    (select_body w item).spawned = w.spawned ∨
    ((select_body w item).waiting = true ∧
     (select_body w item).ctx.isSome = true) := by
  unfold select_body
  split
  · exact .inl rfl
  · split
    · exact .inl rfl
    · rename_i parentKey _
      dsimp only []
      cases hsel : (getMenu (menu_set_selection w parentKey (some item.key))
          parentKey).bind (fun m => m.selMenu) with
      | none =>
        cases hp : item.pipe with
        | none =>
          cases hsub : item.submenu with
          | none => exact .inl rfl
          | some sk => exact .inl rfl
        | some pd =>
          cases hsub : item.submenu with
          | none => exact parse_pipemenu_spawn_cases _ item pd
          | some sk => exact .inl rfl
      | some oldChild =>
        have hc := menu_close_frame (menu_set_selection w parentKey (some item.key)) oldChild
        cases hp : item.pipe with
        | none =>
          cases hsub : item.submenu with
          | none => exact .inl hc.2.2.2.2
          | some sk => exact .inl hc.2.2.2.2
        | some pd =>
          cases hsub : item.submenu with
          | none =>
            rcases parse_pipemenu_spawn_cases
              (menu_close (menu_set_selection w parentKey (some item.key)) oldChild) item pd with
              h | h
            · exact .inl (h.trans hc.2.2.2.2)
            · exact .inr h
          | some sk => exact .inl hc.2.2.2.2

lemma select_spawn_side (w : World) (k : Nat) :
    (menu_process_item_selection w k).spawned = w.spawned ∨
    (w.waiting = false ∧ (menu_process_item_selection w k).waiting = true ∧
     (menu_process_item_selection w k).ctx.isSome = true) := by
  unfold menu_process_item_selection
  cases hgi : getItem w k with
  | none => exact .inl rfl
  | some item =>
    dsimp only []
    by_cases h1 : w.selectedItem = some k
    · rw [if_pos h1]; exact .inl rfl
    · rw [if_neg h1]
      by_cases h2 : w.waiting = true
      · rw [if_pos h2]; exact .inl rfl
      · rw [if_neg h2]
        rcases select_body_spawn_cases { w with selectedItem := some k } item with h | h
        · exact .inl h
        · exact .inr ⟨by simpa using h2, h.1, h.2⟩

lemma select_fix_or_mark (w : World) (k : Nat) :
    menu_process_item_selection w k = w ∨
    ((menu_process_item_selection w k).selectedItem = some k ∧
     getItem (menu_process_item_selection w k) k = getItem w k) := by
  unfold menu_process_item_selection
  cases hgi : getItem w k with
  | none => exact .inl rfl
  | some item =>
    dsimp only []
    by_cases h1 : w.selectedItem = some k
    · rw [if_pos h1]; exact .inl rfl
    · rw [if_neg h1]
      by_cases h2 : w.waiting = true
      · rw [if_pos h2]; exact .inl rfl
      · rw [if_neg h2]
        refine .inr ⟨?_, ?_⟩
        · exact (select_body_frame { w with selectedItem := some k } item).2
        · unfold getItem
          rw [(select_body_frame { w with selectedItem := some k } item).1]
          exact hgi

/-! ## Claim theorems -/

/-- C1: whenever appending a newly read chunk would make the accumulated
pipe-menu buffer exceed `PIPEMENU_MAX_BUF_SIZE` (1 MiB), the readable
handler sends the subprocess SIGTERM, emits a diagnostic, tears the
request down (context freed, pending flag cleared), and leaves all menus
and items untouched — in particular the triggering item, which had no
submenu when the request started, still has none. -/
theorem pipemenu_overflow_kills_subprocess (w : World) (ctx : PipeCtx)
    (data : List Char) (parseOk : Bool)
    (hctx : w.ctx = some ctx)
    (hover : ctx.buf.length + data.length > PIPEMENU_MAX_BUF_SIZE)
    (hsub : ∀ it ∈ w.items, it.key = ctx.itemKey → it.submenu = none) :
    handle_pipemenu_readable w (.chunk data) parseOk
      = { w with ctx := none, waiting := false,
                 diags := w.diags + 1, sigterms := w.sigterms + 1 } ∧
    (∀ it ∈ (handle_pipemenu_readable w (.chunk data) parseOk).items,
      it.key = ctx.itemKey → it.submenu = none) := by
  have heq : handle_pipemenu_readable w (.chunk data) parseOk
      = { w with ctx := none, waiting := false,
                 diags := w.diags + 1, sigterms := w.sigterms + 1 } := by
    unfold handle_pipemenu_readable
    rw [hctx]
    dsimp only []
    rw [if_pos hover]
    rfl
  exact ⟨heq, by rw [heq]; exact hsub⟩

lemma overflow_chunk_too_big :
    (PipeCtx.mk 0 []).buf.length + (List.replicate 1048577 'a').length
      > PIPEMENU_MAX_BUF_SIZE := by
  rw [List.length_replicate]
  decide

theorem pipemenu_overflow_kills_subprocess_witness :
    handle_pipemenu_readable overflowWorld (.chunk (List.replicate 1048577 'a')) true
      = { overflowWorld with
          ctx := none, waiting := false,
          diags := overflowWorld.diags + 1,
          sigterms := overflowWorld.sigterms + 1 } ∧
    (∀ it ∈ (handle_pipemenu_readable overflowWorld
        (.chunk (List.replicate 1048577 'a')) true).items,
      it.key = (0 : Nat) → it.submenu = none) :=
  pipemenu_overflow_kills_subprocess overflowWorld (PipeCtx.mk 0 [])
    (List.replicate 1048577 'a') true rfl overflow_chunk_too_big (by decide)

/-- C2: while a pipe-menu request is pending (`waiting_for_pipe_menu`
set, i.e. from successful spawn until `pipemenu_ctx_destroy`), every
`menu_process_item_selection` call on any item returns the state
entirely unchanged; and a call can spawn (extend the spawn log) only
when no request was pending, in which case exactly one request is then
in flight. -/
theorem select_noop_while_pipemenu_pending (w : World) (k : Nat) :
    (w.waiting = true → menu_process_item_selection w k = w) ∧
    ((menu_process_item_selection w k).spawned ≠ w.spawned →
      w.waiting = false ∧ (menu_process_item_selection w k).waiting = true ∧
      (menu_process_item_selection w k).ctx.isSome = true) := by
  constructor
  · intro hw
    unfold menu_process_item_selection
    cases hgi : getItem w k with
    | none => rfl
    | some item =>
      dsimp only []
      by_cases h1 : w.selectedItem = some k
      · rw [if_pos h1]
      · rw [if_neg h1, if_pos hw]
  · intro hs
    rcases select_spawn_side w k with h | h
    · exact absurd h hs
    · exact h

theorem select_noop_while_pipemenu_pending_witness :
    menu_process_item_selection pendingWorld 3 = pendingWorld :=
  (select_noop_while_pipemenu_pending pendingWorld 3).1 rfl

/-- C3: on end of stream (a zero-length read), the handler hands the
buffer to `create_pipe_menu` — the only path that can build and attach a
submenu — exactly when the buffer, after leading spaces/tabs/CR/LF,
starts with `<`; otherwise it emits a diagnostic and tears the request
down with every menu and item untouched, so the triggering item gets no
submenu. -/
theorem pipemenu_eof_requires_xml_start (w : World) (ctx : PipeCtx) (parseOk : Bool)
    (hctx : w.ctx = some ctx)
    (hlen : ctx.buf.length ≤ PIPEMENU_MAX_BUF_SIZE) :
    (starts_with_less_than ctx.buf = false →
      handle_pipemenu_readable w (.chunk []) parseOk
        = { w with ctx := none, waiting := false, diags := w.diags + 1 }) ∧
    (starts_with_less_than ctx.buf = true →
      handle_pipemenu_readable w (.chunk []) parseOk
        = pipemenu_ctx_destroy (create_pipe_menu w ctx parseOk)) := by
  have hno : ¬ (ctx.buf.length + ([] : List Char).length > PIPEMENU_MAX_BUF_SIZE) := by
    simpa using hlen
  constructor
  · intro hxml
    unfold handle_pipemenu_readable
    rw [hctx]
    dsimp only []
    rw [if_neg hno]
    simp [hxml, pipemenu_ctx_destroy, logDiag]
  · intro hxml
    unfold handle_pipemenu_readable
    rw [hctx]
    dsimp only []
    rw [if_neg hno]
    simp [hxml]

theorem pipemenu_eof_requires_xml_start_witness :
    handle_pipemenu_readable malformedWorld (.chunk []) true
      = { malformedWorld with
          ctx := none, waiting := false,
          diags := malformedWorld.diags + 1 } :=
  (pipemenu_eof_requires_xml_start malformedWorld
    ⟨0, ['n', 'o', 't', ' ', 'x', 'm', 'l']⟩ true rfl (by decide)).1 (by decide)

/-- C9: selecting the same item twice in a row is idempotent — the
second `menu_process_item_selection` call returns the state produced by
the first one unchanged: no selection churn, no submenu toggling, no
second spawn. -/
theorem select_idempotent (w : World) (k : Nat) :
    menu_process_item_selection (menu_process_item_selection w k) k
      = menu_process_item_selection w k := by
  rcases select_fix_or_mark w k with h | ⟨h1, h2⟩
  · rw [h]; exact h
  · rw [menu_process_item_selection.eq_def, h2]
    cases hgi : getItem w k with
    | none => rfl
    | some item =>
      simp only [h1, if_true]

/-- C4 (counterexample): `menu_create` registers a menu even when its id
already exists (it only logs a diagnostic), so two `menu_create` calls
with the same id leave two live menus under that id — the claimed
at-all-times uniqueness invariant fails. -/
theorem duplicate_menu_id_counterexample :
    ¬ uniqueIds (menu_create (menu_create [] "a" none).1 "a" none).1 := by
  decide

/-- C4 (amended): id uniqueness is preserved by every operation except
an unguarded duplicate creation: starting from a registry with unique
ids, `menu_create` keeps them unique exactly when the new id is fresh
(`is_unique_id`); with a duplicate id it emits the diagnostic but
registers anyway, breaking uniqueness; pipe-menu splicing is guarded by
`is_unique_id` before spawning (menu.c:1213), and teardown only removes
menus, which also preserves uniqueness. -/
theorem menu_ids_unique_when_guarded (menus : List MenuReg) (i : String)
    (lbl : Option String) (p : MenuReg → Bool) (h : uniqueIds menus) :
    (is_unique_id menus i = true → uniqueIds (menu_create menus i lbl).1) ∧
    (is_unique_id menus i = false →
      ¬ uniqueIds (menu_create menus i lbl).1 ∧ (menu_create menus i lbl).2 = true) ∧
    uniqueIds (menus.filter p) := by
  refine ⟨?_, ?_, ?_⟩
  · intro hu
    rw [is_unique_id_iff] at hu
    unfold uniqueIds at h
    unfold uniqueIds menu_create
    simp only [List.map_append, List.map_cons, List.map_nil]
    rw [List.nodup_append]
    refine ⟨h, List.nodup_singleton _, ?_⟩
    intro x hx hx1
    simp only [List.mem_map] at hx
    obtain ⟨m, hm, rfl⟩ := hx
    simp only [List.mem_singleton] at hx1
    exact hu m hm hx1
  · intro hd
    rw [is_unique_id_false_iff] at hd
    obtain ⟨m, hm, hmi⟩ := hd
    constructor
    · unfold uniqueIds menu_create
      simp only [List.map_append, List.map_cons, List.map_nil]
      rw [List.nodup_append]
      rintro ⟨-, -, hdisj⟩
      exact hdisj (a := i) (by simpa [← hmi] using List.mem_map_of_mem (·.id) hm)
        (by simp)
    · simp only [menu_create, Bool.not_eq_true']
      rw [is_unique_id_false_iff]
      exact ⟨m, hm, hmi⟩
  · exact List.Nodup.sublist ((List.filter_sublist menus).map (·.id)) h

/-- Witness for C4 (amended) at a concrete registry: a fresh id keeps
ids unique. -/
theorem menu_ids_unique_when_guarded_witness :
    uniqueIds (menu_create [⟨"a", "a"⟩] "b" none).1 :=
  (menu_ids_unique_when_guarded [⟨"a", "a"⟩] "b" none (fun _ => true)
    (by decide)).1 (by decide)

/-- C5: starting from a fresh menu, after any sequence of item
creations (regular items or separators) and `menu_hide_submenu`
removals, the stored height equals the sum of the current items'
heights in list order and every item's vertical position equals the sum
of the heights of the items preceding it. -/
theorem menu_height_position_invariant (ops : List LOp) :
    layoutInv (applyLOps lmenu_empty ops) := by
  suffices h : ∀ (ops : List LOp) (m : LMenu), layoutInv m → layoutInv (applyLOps m ops) by
    exact h ops lmenu_empty ⟨rfl, trivial⟩
  intro ops
  induction ops with
  | nil => exact fun m hm => hm
  | cons op rest ih =>
    intro m hm
    exact ih (applyLOp m op) (layoutInv_applyLOp m op hm)

/-- C6 (counterexample): with a configured maximum width below the
configured minimum (min 10, max 8, padding 1) and a single item of
native width 12, the loop clamps to 8 and yields width 10, while the
claimed formula `max min (min widest max) + 2·pad` yields 12. -/
theorem menu_width_formula_counterexample :
    menu_update_width ⟨10, 8, 1⟩ [12] ≠ spec_menu_width ⟨10, 8, 1⟩ [12] := by
  decide

/-- C6 (amended): provided the configured minimum width is non-negative
and does not exceed the configured maximum width, and item widths are
non-negative (all true of real font metrics and sane themes), the
computed width equals the spec formula: the maximum of the configured
minimum and the widest item's natural width clamped to the configured
maximum, plus twice the horizontal item padding. -/
theorem menu_width_formula (theme : WTheme) (natives : List Int)
    (h0 : 0 ≤ theme.menu_min_width)
    (h1 : theme.menu_min_width ≤ theme.menu_max_width)
    (hns : ∀ n ∈ natives, 0 ≤ n) :
    menu_update_width theme natives = spec_menu_width theme natives := by
  unfold menu_update_width spec_menu_width widest
  rw [update_width_fold_eq theme.menu_max_width theme.menu_min_width h1 natives hns
    theme.menu_min_width 0 le_rfl (by omega)]

/-- Witness for C6 (amended) at a concrete sane theme. -/
theorem menu_width_formula_witness :
    menu_update_width ⟨2, 5, 1⟩ [3, 7] = spec_menu_width ⟨2, 5, 1⟩ [3, 7] :=
  menu_width_formula ⟨2, 5, 1⟩ [3, 7] (by norm_num) (by norm_num) (by decide)

/-- C7: creating a menu under an already-used id emits the diagnostic
but still registers the menu (the registry grows by one); a lookup by
that id afterwards returns the same menu as before the duplicate
creation — the first-registered one, which exists; a null id or an id
matching no live menu looks up to `none` rather than failing. -/
theorem duplicate_menu_create_not_fatal (menus : List MenuReg) (i : String)
    (lbl : Option String) :
    (menu_create menus i lbl).1.length = menus.length + 1 ∧
    (menu_create menus i lbl).2 = !is_unique_id menus i ∧
    (is_unique_id menus i = false →
      menu_get_by_id (menu_create menus i lbl).1 (some i) = menu_get_by_id menus (some i) ∧
      ∃ m ∈ menus, menu_get_by_id menus (some i) = some m) ∧
    menu_get_by_id menus none = none ∧
    (∀ j, is_unique_id menus j = true → menu_get_by_id menus (some j) = none) := by
  refine ⟨by simp [menu_create], rfl, ?_, rfl, ?_⟩
  · intro hd
    rw [is_unique_id_false_iff] at hd
    obtain ⟨m, hm, hmi⟩ := hd
    have hfind : ∃ m', menus.find? (fun m => m.id = i) = some m' := by
      rw [← Option.isSome_iff_exists, List.find?_isSome]
      exact ⟨m, hm, by simp [hmi]⟩
    obtain ⟨m', hm'⟩ := hfind
    constructor
    · unfold menu_get_by_id menu_create
      dsimp only []
      rw [List.find?_append, hm']
      rfl
    · exact ⟨m', List.mem_of_find?_eq_some hm', hm'⟩
  · intro j hj
    rw [is_unique_id_iff] at hj
    unfold menu_get_by_id
    rw [List.find?_eq_none]
    intro m hm
    simp [hj m hm]

/-- Witness for C7 at a concrete duplicate: after registering a second
menu under id `a`, looking `a` up still yields the first-registered
entry. -/
theorem duplicate_menu_create_not_fatal_witness :
    menu_get_by_id (menu_create [⟨"a", "x"⟩] "a" (some "y")).1 (some "a")
      = menu_get_by_id [⟨"a", "x"⟩] (some "a") :=
  ((duplicate_menu_create_not_fatal [⟨"a", "x"⟩] "a" (some "y")).2.2.1 (by decide)).1

/-- C8: configuring a menu with automatic alignment at a point inside a
known screen region resolves to leftward exactly when the region-local
x plus `menu_get_full_width` (the menu plus its widest submenu chain)
exceeds the region's usable width, and to upward exactly when the
region-local y plus the menu's height exceeds the usable height; in
particular overflow on both axes yields upward-and-leftward. -/
theorem auto_alignment_resolution (overlap_x : Int) (menu : MTree) (height : Int)
    (usable : UsableArea) (ox oy : Int) :
    menu_configure_align overlap_x menu height (some usable) ox oy .auto
      = some { left := decide (ox + menu_get_full_width overlap_x menu > usable.width),
               top := decide (oy + height > usable.height) } ∧
    (∀ r, menu_configure_align overlap_x menu height (some usable) ox oy .auto = some r →
      ((r.left = true ↔ ox + menu_get_full_width overlap_x menu > usable.width) ∧
       (r.top = true ↔ oy + height > usable.height))) ∧
    (ox + menu_get_full_width overlap_x menu > usable.width →
     oy + height > usable.height →
      menu_configure_align overlap_x menu height (some usable) ox oy .auto
        = some { left := true, top := true }) := by
  refine ⟨rfl, ?_, ?_⟩
  · intro r hr
    simp only [menu_configure_align, resolve_align, Option.some.injEq] at hr
    subst hr
    constructor <;> simp
  · intro h1 h2
    simp [menu_configure_align, resolve_align, h1, h2]

/-- Witness for C8: a two-level menu chain whose full width and height
both overflow a concrete usable area resolves to up-and-left. -/
theorem auto_alignment_resolution_witness :
    menu_configure_align 1 (MTree.node 10 [MTree.node 8 []]) 20
        (some ⟨15, 12⟩) 3 2 .auto = some { left := true, top := true } :=
  (auto_alignment_resolution 1 (MTree.node 10 [MTree.node 8 []]) 20 ⟨15, 12⟩ 3 2).2.2
    (by simp [menu_get_full_width, max_child_width])
    (by norm_num)

lemma menu_free_no_refs (w : World) (k : Nat) :
    (∀ m ∈ (menu_free w k).menus, m.key ≠ k ∧ m.parent ≠ some k) ∧
    (∀ it ∈ (menu_free w k).items, it.submenu ≠ some k) := by
  constructor
  · intro m hm
    simp only [menu_free, nullify_item_pointing_to_this_menu, List.mem_filter,
      List.mem_map, Bool.not_eq_eq_eq_not, Bool.not_true, decide_eq_false_iff_not] at hm
    obtain ⟨⟨m0, hm0, rfl⟩, hkey⟩ := hm
    by_cases hp : m0.parent = some k
    · simp only [if_pos hp] at hkey ⊢
      exact ⟨hkey, by simp⟩
    · simp only [if_neg hp] at hkey ⊢
      exact ⟨hkey, hp⟩
  · intro it hit
    simp only [menu_free, nullify_item_pointing_to_this_menu, List.mem_filter,
      List.mem_map, Bool.not_eq_eq_eq_not, Bool.not_true, decide_eq_false_iff_not] at hit
    obtain ⟨⟨it0, hit0, rfl⟩, -⟩ := hit
    by_cases hs : it0.submenu = some k
    · simp only [if_pos hs]
      simp
    · simp only [if_neg hs]
      exact hs

lemma menu_free_preserves_no_refs (w : World) (k a : Nat)
    (hm : ∀ m ∈ w.menus, m.key ≠ k ∧ m.parent ≠ some k)
    (hi : ∀ it ∈ w.items, it.submenu ≠ some k) :
    (∀ m ∈ (menu_free w a).menus, m.key ≠ k ∧ m.parent ≠ some k) ∧
    (∀ it ∈ (menu_free w a).items, it.submenu ≠ some k) := by
  constructor
  · intro m hmem
    simp only [menu_free, nullify_item_pointing_to_this_menu, List.mem_filter,
      List.mem_map] at hmem
    obtain ⟨⟨m0, hm0, rfl⟩, -⟩ := hmem
    by_cases hp : m0.parent = some a
    · simp only [if_pos hp]
      exact ⟨(hm m0 hm0).1, by simp⟩
    · simp only [if_neg hp]
      exact hm m0 hm0
  · intro it hmem
    simp only [menu_free, nullify_item_pointing_to_this_menu, List.mem_filter,
      List.mem_map] at hmem
    obtain ⟨⟨it0, hit0, rfl⟩, -⟩ := hmem
    by_cases hs : it0.submenu = some a
    · simp only [if_pos hs]
      simp
    · simp only [if_neg hs]
      exact hi it0 hit0

lemma foldl_menu_free_preserves (ks : List Nat) (w : World) (k : Nat)
    (hm : ∀ m ∈ w.menus, m.key ≠ k ∧ m.parent ≠ some k)
    (hi : ∀ it ∈ w.items, it.submenu ≠ some k) :
    (∀ m ∈ (ks.foldl menu_free w).menus, m.key ≠ k ∧ m.parent ≠ some k) ∧
    (∀ it ∈ (ks.foldl menu_free w).items, it.submenu ≠ some k) := by
  induction ks generalizing w with
  | nil => exact ⟨hm, hi⟩
  | cons a rest ih =>
    have h := menu_free_preserves_no_refs w k a hm hi
    exact ih (menu_free w a) h.1 h.2

lemma foldl_menu_free_no_refs (ks : List Nat) (w : World) (k : Nat) (hk : k ∈ ks) :
    (∀ m ∈ (ks.foldl menu_free w).menus, m.key ≠ k ∧ m.parent ≠ some k) ∧
    (∀ it ∈ (ks.foldl menu_free w).items, it.submenu ≠ some k) := by
  induction ks generalizing w with
  | nil => cases hk
  | cons a rest ih =>
    rcases List.mem_cons.mp hk with rfl | hk2
    · have h := menu_free_no_refs w k
      exact foldl_menu_free_preserves rest (menu_free w k) k h.1 h.2
    · exact ih hk2 (w := menu_free w a)

/-- C10: freeing a menu (`menu_free`, as used both by pipe-menu teardown
and bulk destruction) first nullifies every other live menu item\'s
submenu reference to it and every live menu\'s parent reference to it,
then removes it, so no surviving menu or item references the freed menu;
consequently after `destroy_pipemenus` no surviving menu or item
references any of the freed pipe menus. -/
theorem freed_menus_leave_no_dangling_references (w : World) (k : Nat) :
    ((∀ m ∈ (menu_free w k).menus, m.key ≠ k ∧ m.parent ≠ some k) ∧
     (∀ it ∈ (menu_free w k).items, it.submenu ≠ some k)) ∧
    (∀ k2 ∈ pipeKeys w,
      (∀ m ∈ (destroy_pipemenus w).menus, m.key ≠ k2 ∧ m.parent ≠ some k2) ∧
      (∀ it ∈ (destroy_pipemenus w).items, it.submenu ≠ some k2)) := by
  refine ⟨menu_free_no_refs w k, ?_⟩
  intro k2 hk2
  exact foldl_menu_free_no_refs (pipeKeys w) w k2 hk2

theorem freed_menus_leave_no_dangling_references_witness :
    (⟨5, some 0, true, some ⟨"cmd", "pipe-1"⟩, none⟩ : WItem).submenu ≠ some 1 :=
  ((freed_menus_leave_no_dangling_references teardownWorld 1).2 1 (by decide)).2
    ⟨5, some 0, true, some ⟨"cmd", "pipe-1"⟩, none⟩ (by decide)

end Labwc
